import Mathlib

/-!
Shallow embedding of the authored logic of `src/App.js` (a react-three-fiber
ping-pong demo): the zustand game-state store (`count`, `welcome`, with the
mutators `pong` and `reset`), the audio side effects of `pong`, the canvas
click handler, and the per-frame paddle update with lerp smoothing.
-/

namespace PingPong

/-- Game state held by the zustand store: `count` (score) and `welcome`. -/
structure GameState where
  count : Nat
  welcome : Bool
deriving DecidableEq, Repr

/-- Initial store state: `{ count: 0, welcome: true }`. -/
def initialState : GameState := ⟨0, true⟩

/-- lodash `clamp(number, lower, upper)`: caps at `upper` first, then raises to
`lower`. -/
def clamp (x lo hi : ℚ) : ℚ := max (min x hi) lo

/-- State transition of `pong(velocity)`: `if (velocity > 4) set(state => ({ count:
state.count + 1 }))`; zustand merges the partial object, so `welcome` is untouched. -/
def pong (velocity : ℚ) (s : GameState) : GameState :=
  if velocity > 4 then { s with count := s.count + 1 } else s

/-- State transition of `reset(welcome)`:
`set(state => ({ welcome, count: welcome ? state.count : 0 }))`. -/
def reset (welcome : Bool) (s : GameState) : GameState :=
  { count := if welcome then s.count else 0, welcome := welcome }

/-- State of the `ping` audio element as far as `pong` manipulates it. -/
structure AudioState where
  currentTime : ℚ
  volume : ℚ
  playing : Bool
deriving DecidableEq, Repr

/-- One observable effect performed by the body of `pong`. -/
inductive Effect where
  | setCurrentTime (t : ℚ)
  | setVolume (v : ℚ)
  | play
  | incCount
deriving DecidableEq, Repr

/-- The effect sequence of `pong(velocity)` in source order: rewind the cue,
set the volume, play, then the conditional score increment. -/
def pongEffects (velocity : ℚ) : List Effect :=
  [Effect.setCurrentTime 0, Effect.setVolume (clamp (velocity / 20) 0 1), Effect.play] ++
    (if velocity > 4 then [Effect.incCount] else [])

/-- Interpretation of one effect on the joint game/audio state. -/
def applyEffect (p : GameState × AudioState) : Effect → GameState × AudioState
  | Effect.setCurrentTime t => (p.1, { p.2 with currentTime := t })
  | Effect.setVolume v => (p.1, { p.2 with volume := v })
  | Effect.play => (p.1, { p.2 with playing := true })
  | Effect.incCount => ({ p.1 with count := p.1.count + 1 }, p.2)

/-- Run the full body of `pong(velocity)` on game and audio state. -/
def pongRun (velocity : ℚ) (s : GameState) (a : AudioState) : GameState × AudioState :=
  (pongEffects velocity).foldl applyEffect (s, a)

/-- The canvas click handler: `() => welcome && reset(false)`. -/
def onClick (s : GameState) : GameState :=
  if s.welcome then reset false s else s

/-- One store mutation as wired in the scene: a paddle collision calls
`pong(impactVelocity)`, ground contact calls `reset(true)` unconditionally, and a
click calls `reset(false)` but only while `welcome` is true. -/
inductive Step : GameState → GameState → Prop where
  | pongStep (v : ℚ) (s : GameState) : Step s (pong v s)
  | groundStep (s : GameState) : Step s (reset true s)
  | clickStep (s : GameState) : s.welcome = true → Step s (reset false s)

/-- States reachable from the initial state by the wired operations. -/
inductive Reachable : GameState → Prop where
  | init : Reachable initialState
  | next {s t : GameState} : Reachable s → Step s t → Reachable t

/-- The npm `lerp` package: `lerp(v0, v1, t) = v0 * (1 - t) + v1 * t`, over exact
rationals (JS numbers modelled exactly). -/
def lerp (v0 v1 t : ℚ) : ℚ := v0 * (1 - t) + v1 * t

/-- Iterated smoothing toward a constant target `T` with factor 0.2 = 1/5, starting
from `v0`: the value after `n` frames. -/
def smoothIter (T v0 : ℚ) : ℕ → ℚ
  | 0 => v0
  | n + 1 => lerp (smoothIter T v0 n) T 0.2

/-- Normalized pointer coordinates delivered to the frame callback
(`state.mouse`). -/
structure Pointer where
  x : ℚ
  y : ℚ
deriving DecidableEq, Repr

/-- Per-frame mutable state of the Paddle component: the `values` ref pair and the
decorative model rotation. -/
structure FrameState where
  values0 : ℚ
  values1 : ℚ
  modelRotX : ℚ
  modelRotY : ℚ
deriving DecidableEq, Repr

/-- Pose written to the kinematic paddle body each frame via
`api.position.set` / `api.rotation.set`. -/
structure Pose where
  px : ℚ
  py : ℚ
  pz : ℚ
  rx : ℚ
  ry : ℚ
  rz : ℚ
deriving DecidableEq, Repr

/-- The Paddle `useFrame` callback, with the constant `Math.PI` modelled as the
parameter `pi`: lerp both `values` entries toward `mouse.x * pi / 5` with factor
0.2, write the body position from the raw pointer and the body rotation
`(0, 0, values[1])`, and update the decorative model rotation. -/
def frame (pi : ℚ) (welcome : Bool) (m : Pointer) (f : FrameState) : FrameState × Pose :=
  let target := m.x * pi / 5
  let v0 := lerp f.values0 target 0.2
  let v1 := lerp f.values1 target 0.2
  (⟨v0, v1, lerp f.modelRotX (if welcome then pi / 2 else 0) 0.2, v0⟩,
   ⟨m.x * 10, m.y * 5, 0, 0, 0, v1⟩)

/-- Frame state at component mount: `values = [0, 0]` and zero model rotation. -/
def initialFrame : FrameState := ⟨0, 0, 0, 0⟩

/-- Run the frame callback over a sequence of per-frame inputs. -/
def runFrames (pi : ℚ) (f : FrameState) : List (Bool × Pointer) → FrameState
  | [] => f
  | i :: rest => runFrames pi (frame pi i.1 i.2 f).1 rest

end PingPong

namespace PingPong

/-- pong never changes the welcome flag: the partial update merged into the store
only mentions count. -/
theorem pong_welcome (v : ℚ) (s : GameState) : (pong v s).welcome = s.welcome := by
  by_cases h : (4 : ℚ) < v <;> simp [pong, h]

/-- pong never decreases count. -/
theorem pong_count_le (v : ℚ) (s : GameState) : s.count ≤ (pong v s).count := by
  by_cases h : (4 : ℚ) < v <;> simp [pong, h]

/-- reset never increases count: it keeps it or zeroes it. -/
theorem reset_count_le (b : Bool) (s : GameState) : (reset b s).count ≤ s.count := by
  cases b <;> simp [reset]

/-- The two smoothed components stay equal across frames once equal, since they are
lerped toward the same target. -/
theorem runFrames_values_eq (pi : ℚ) (inputs : List (Bool × Pointer)) (f : FrameState)
    (h : f.values0 = f.values1) :
    (runFrames pi f inputs).values0 = (runFrames pi f inputs).values1 := by
  induction inputs generalizing f with
  | nil => exact h
  | cons i rest ih =>
      exact ih _ (by simp [frame, h])

end PingPong

namespace PingPong

/-- C1 counterexample: from prior state `{count: 1, welcome: false}` (e.g. the ball
hitting the ground after one successful pong), `reset(true)` keeps `count = 1`
rather than setting it to 0 as the claim states. -/
theorem C1_counterexample :
    (reset true ⟨1, false⟩).welcome = true ∧ (reset true ⟨1, false⟩).count = 1 ∧
      ¬ (reset true ⟨1, false⟩).count = 0 := by
  refine ⟨rfl, rfl, ?_⟩
  decide

/-- C1 (amended): for every prior state, `reset(true)` sets `welcome` to true and
leaves `count` unchanged; in particular after any ball-ground contact the state
becomes `{count: prior count, welcome: true}`. -/
theorem C1_amended_reset_true (s : GameState) :
    reset true s = ⟨s.count, true⟩ := rfl

/-- C2 counterexample: from prior state `{count: 1, welcome: true}`, `reset(false)`
sets `count` to 0 rather than leaving it at 1 as the claim states. -/
theorem C2_counterexample :
    (reset false ⟨1, true⟩).welcome = false ∧ (reset false ⟨1, true⟩).count = 0 ∧
      (reset false ⟨1, true⟩).count ≠ (GameState.mk 1 true).count := by
  refine ⟨rfl, rfl, ?_⟩
  decide

/-- C2 (amended): for every prior state, `reset(false)` sets `welcome` to false and
sets `count` to 0. -/
theorem C2_amended_reset_false (s : GameState) :
    reset false s = ⟨0, false⟩ := rfl

/-- C4: for every velocity and prior state, `pong(velocity)` leaves `count`
unchanged when velocity ≤ 4 and increments `count` by exactly 1 when velocity > 4. -/
theorem C4_pong_count (v : ℚ) (s : GameState) :
    (v ≤ 4 → (pong v s).count = s.count) ∧ (4 < v → (pong v s).count = s.count + 1) := by
  constructor
  · intro h
    simp [pong, not_lt.mpr h]
  · intro h
    simp [pong, h]

/-- C4 witness: velocity 3 leaves the initial count unchanged and velocity 5
increments it. -/
theorem C4_witness :
    ((3 : ℚ) ≤ 4 ∧ (pong 3 initialState).count = initialState.count) ∧
      ((4 : ℚ) < 5 ∧ (pong 5 initialState).count = initialState.count + 1) :=
  ⟨⟨by norm_num, (C4_pong_count 3 initialState).1 (by norm_num)⟩,
   ⟨by norm_num, (C4_pong_count 5 initialState).2 (by norm_num)⟩⟩

/-- C5: `pong` is the only store operation that can increase `count`: `reset(b)`
never produces a count larger than the prior one (for either boolean), while
`pong` never decreases it (and may increase it). -/
theorem C5_only_pong_increases (b : Bool) (v : ℚ) (s : GameState) :
    (reset b s).count ≤ s.count ∧ s.count ≤ (pong v s).count :=
  ⟨reset_count_le b s, pong_count_le v s⟩

/-- C9: a click calls `reset(false)` only while `welcome` is true, a click while
`welcome` is false leaves the state unchanged, and from the initial state
`{count: 0, welcome: true}` a click yields `{count: 0, welcome: false}`. -/
theorem C9_click (s : GameState) :
    (s.welcome = false → onClick s = s) ∧ (s.welcome = true → onClick s = reset false s) ∧
      onClick initialState = ⟨0, false⟩ := by
  refine ⟨?_, ?_, rfl⟩
  · intro h
    simp [onClick, h]
  · intro h
    simp [onClick, h]

/-- C9 witness: a click at `{count: 7, welcome: false}` is a no-op, and a click at
the initial state performs `reset(false)`. -/
theorem C9_witness :
    (GameState.mk 7 false).welcome = false ∧ onClick ⟨7, false⟩ = ⟨7, false⟩ ∧
      (GameState.mk 0 true).welcome = true ∧ onClick ⟨0, true⟩ = reset false ⟨0, true⟩ :=
  ⟨rfl, (C9_click ⟨7, false⟩).1 rfl, rfl, (C9_click ⟨0, true⟩).2.1 rfl⟩

/-- C10: for every velocity and prior state, `pong(velocity)` leaves `welcome`
unchanged, both as the bare state transition and when run with its audio effects. -/
theorem C10_pong_preserves_welcome (v : ℚ) (s : GameState) (a : AudioState) :
    (pong v s).welcome = s.welcome ∧ (pongRun v s a).1.welcome = s.welcome := by
  refine ⟨pong_welcome v s, ?_⟩
  by_cases h : (4 : ℚ) < v <;>
    simp [pongRun, pongEffects, applyEffect, h]

/-- C3 counterexample: the state `{count: 1, welcome: false}` is reachable
(click, then a pong at velocity 5), and the ground-contact step `reset(true)` from
it transitions `welcome` to true while keeping `count = 1`, refuting the claim
that `count` becomes 0 whenever `welcome` transitions to true. -/
theorem C3_counterexample :
    Reachable ⟨1, false⟩ ∧ Step ⟨1, false⟩ ⟨1, true⟩ ∧
      (GameState.mk 1 false).welcome = false ∧ (GameState.mk 1 true).welcome = true ∧
      (GameState.mk 1 true).count ≠ 0 := by
  have h45 : (4 : ℚ) < 5 := by norm_num
  refine ⟨?_, ?_, rfl, rfl, by decide⟩
  · have h1 : Step initialState ⟨0, false⟩ := Step.clickStep initialState rfl
    have h2 : Step ⟨0, false⟩ ⟨1, false⟩ := by
      have hp := Step.pongStep 5 ⟨0, false⟩
      simpa [pong, h45] using hp
    exact Reachable.next (Reachable.next Reachable.init h1) h2
  · exact Step.groundStep ⟨1, false⟩

/-- C3 (amended): along any wired step from a reachable state, `count` becomes 0
whenever `welcome` transitions to false, and `count` is monotonically
non-decreasing across operations while `welcome` is false. -/
theorem C3_amended_invariant (s t : GameState) (_hr : Reachable s) (hst : Step s t) :
    (s.welcome = true → t.welcome = false → t.count = 0) ∧
      (s.welcome = false → t.welcome = false → s.count ≤ t.count) := by
  cases hst with
  | pongStep v s =>
      constructor
      · intro h1 h2
        rw [pong_welcome v s] at h2
        simp [h1] at h2
      · intro _ _
        exact pong_count_le v s
  | groundStep s =>
      constructor
      · intro _ h2
        simp [reset] at h2
      · intro _ h2
        simp [reset] at h2
  | clickStep s hw =>
      constructor
      · intro _ _
        rfl
      · intro h1 _
        rw [hw] at h1
        simp at h1

/-- C3 witness: from the reachable initial state, the click step transitions
`welcome` to false and yields `count = 0`. -/
theorem C3_amended_witness :
    Reachable initialState ∧ Step initialState ⟨0, false⟩ ∧
      (initialState.welcome = true → (GameState.mk 0 false).welcome = false →
        (GameState.mk 0 false).count = 0) :=
  ⟨Reachable.init, Step.clickStep initialState rfl,
   (C3_amended_invariant initialState ⟨0, false⟩ Reachable.init
      (Step.clickStep initialState rfl)).1⟩

/-- C6: for every velocity (including ≤ 4) and every prior game/audio state,
`pong(velocity)` first rewinds the cue to time 0, sets the volume to
`max(0, min(1, velocity/20))` and plays it, unconditionally, and only afterwards
performs the conditional score increment; running the whole body leaves the audio
at `{currentTime: 0, volume: clamped, playing: true}` and the game at
`pong velocity s`. -/
theorem C6_pong_audio (v : ℚ) (s : GameState) (a : AudioState) :
    List.take 3 (pongEffects v) =
        [Effect.setCurrentTime 0, Effect.setVolume (max 0 (min 1 (v / 20))), Effect.play] ∧
      List.drop 3 (pongEffects v) = (if 4 < v then [Effect.incCount] else []) ∧
      (pongRun v s a).2 = ⟨0, max 0 (min 1 (v / 20)), true⟩ ∧
      (pongRun v s a).1 = pong v s := by
  obtain ⟨ct, vol, pl⟩ := a
  have hc : clamp (v / 20) 0 1 = max 0 (min 1 (v / 20)) := by
    rw [clamp, max_comm, min_comm]
  by_cases h : (4 : ℚ) < v <;>
    simp [pongRun, pongEffects, applyEffect, pong, hc, h]

/-- C7: on every frame, the paddle body position is written directly from the raw
pointer as `(x*10, y*5, 0)` and its rotation as `(0, 0, smoothed)`, where both
stored smoothed components move toward the same target `x * π / 5` by
`prev + 0.2 * (target - prev)`; starting from the initial pair `(0, 0)` the two
components are equal after every frame sequence. -/
theorem C7_paddle_frame (pi : ℚ) (w : Bool) (m : Pointer) (f : FrameState)
    (inputs : List (Bool × Pointer)) :
    (frame pi w m f).2.px = m.x * 10 ∧
      (frame pi w m f).2.py = m.y * 5 ∧
      (frame pi w m f).2.pz = 0 ∧
      (frame pi w m f).2.rx = 0 ∧
      (frame pi w m f).2.ry = 0 ∧
      (frame pi w m f).2.rz = f.values1 + 0.2 * (m.x * pi / 5 - f.values1) ∧
      (frame pi w m f).1.values0 = f.values0 + 0.2 * (m.x * pi / 5 - f.values0) ∧
      (frame pi w m f).1.values1 = f.values1 + 0.2 * (m.x * pi / 5 - f.values1) ∧
      (runFrames pi initialFrame inputs).values0 =
        (runFrames pi initialFrame inputs).values1 := by
  refine ⟨rfl, rfl, rfl, rfl, rfl, ?_, ?_, ?_, runFrames_values_eq pi inputs initialFrame rfl⟩
  all_goals
    simp only [frame, lerp]
    ring

/-- C8: exact smoothing law over the rationals: iterating
`v = v + 0.2 * (T - v)` for `n` frames from `v0` gives `T + (v0 - T) * (4/5)^n`,
and for `v0 ≠ T` the value never equals `T` after finitely many frames. -/
theorem C8_smoothing_law (T v0 : ℚ) (n : ℕ) :
    smoothIter T v0 n = T + (v0 - T) * (4 / 5) ^ n ∧
      (v0 ≠ T → smoothIter T v0 n ≠ T) := by
  have hclosed : ∀ k : ℕ, smoothIter T v0 k = T + (v0 - T) * (4 / 5) ^ k := by
    intro k
    induction k with
    | zero => simp [smoothIter]
    | succ k ih =>
        rw [smoothIter, lerp, ih]
        norm_num
        ring
  refine ⟨hclosed n, ?_⟩
  intro hne
  rw [hclosed n]
  intro habs
  have h1 : (v0 - T) * (4 / 5) ^ n = 0 := by linarith
  rcases mul_eq_zero.mp h1 with h2 | h2
  · exact hne (by linarith)
  · exact pow_ne_zero n (by norm_num) h2

/-- C8 witness: with target 1, start 0 and two frames, the value is `9/25`, which
matches the closed form and differs from the target. -/
theorem C8_witness :
    smoothIter 1 0 2 = 1 + (0 - 1) * (4 / 5) ^ 2 ∧ (0 : ℚ) ≠ 1 ∧ smoothIter 1 0 2 ≠ 1 :=
  ⟨(C8_smoothing_law 1 0 2).1, by norm_num, (C8_smoothing_law 1 0 2).2 (by norm_num)⟩

end PingPong
